import Mathlib

/-!
Verification of the scopy logic-analyzer acquisition engine
(src/src/logicanalyzer/logic_analyzer.cpp) against its specification.

The definitions below are a shallow embedding of the C++ source:
machine integers (`int`, `uint64_t`) are modelled as `Nat` with explicit
`% 2^64` where C++ wraparound could occur, per-channel hardware trigger
conditions are modelled as a list indexed by channel number, and the
capture worker's loops are modelled as explicit state-passing functions.
Source line numbers in the comments refer to logic_analyzer.cpp.
-/

namespace Scopy

/-- `constexpr int MAX_BUFFER_SIZE_ONESHOT = 4 * 1024 * 1024;` (line 26). -/
def MAX_BUFFER_SIZE_ONESHOT : Nat := 4 * 1024 * 1024

/-- `constexpr int MAX_BUFFER_SIZE_STREAM = 1 * 1024 * 1024 * 1024;` (line 27). -/
def MAX_BUFFER_SIZE_STREAM : Nat := 1 * 1024 * 1024 * 1024

/-- One plus the largest `uint64_t` value; used to model C++ `uint64_t` wraparound. -/
def U64 : Nat := 2 ^ 64

/-- `const int bufferSizeAdjusted = static_cast<int>(((bufferSize + 3) / 4) * 4);`
(line 902): the requested buffer size rounded up to a multiple of 4. -/
def roundUp4 (bufferSize : Nat) : Nat := ((bufferSize + 3) / 4) * 4

/-- The maximum buffer size the size spin button accepts in each mode
(`m_bufferSizeButton->setMaxValue(toggled ? MAX_BUFFER_SIZE_ONESHOT
: MAX_BUFFER_SIZE_STREAM)`, lines 378-379). -/
def maxBufferSize (oneshot : Bool) : Nat :=
  if oneshot then MAX_BUFFER_SIZE_ONESHOT else MAX_BUFFER_SIZE_STREAM

/-- The chunk-count loop (lines 977-981):
`uint64_t chunks = 4; while ((bufferSizeAdjusted >> chunks) > (1 << 19)) chunks++;`.
The extra fuel argument makes the recursion structural; `chunks` below
supplies fuel `bsa`, which always suffices because `bsa >>> (4 + bsa) = 0`,
so the fueled function agrees with the unbounded C++ loop. -/
def chunksLoopF : Nat → Nat → Nat → Nat
  | 0, _, c => c
  | fuel + 1, bsa, c => if bsa >>> c > 2 ^ 19 then chunksLoopF fuel bsa (c + 1) else c

/-- The chunk count computed for adjusted buffer size `bsa` (lines 977-981). -/
def chunks (bsa : Nat) : Nat := chunksLoopF bsa bsa 4

/-- `const uint64_t chunk_size = (bufferSizeAdjusted >> chunks) > 0 ?
(bufferSizeAdjusted >> chunks) : 4;` (line 982). -/
def chunk_size (bsa : Nat) : Nat :=
  if bsa >>> chunks bsa > 0 then bsa >>> chunks bsa else 4

/-- `const uint64_t buffersCount = bufferSizeAdjusted / chunk_size;` (line 941). -/
def buffersCount (bsa : Nat) : Nat := bsa / chunk_size bsa

lemma chunksLoopF_post (fuel : Nat) :
    ∀ bsa c, bsa >>> (c + fuel) ≤ 2 ^ 19 → bsa >>> chunksLoopF fuel bsa c ≤ 2 ^ 19 := by
  induction fuel with
  | zero => intro bsa c h; simpa [chunksLoopF] using h
  | succ n ih =>
    intro bsa c h
    rw [chunksLoopF]
    by_cases hc : bsa >>> c > 2 ^ 19
    · rw [if_pos hc]
      apply ih bsa (c + 1)
      have he : c + 1 + n = c + (n + 1) := by omega
      rw [he]
      exact h
    · rw [if_neg hc]
      exact Nat.le_of_not_lt hc

lemma shiftRight_chunks_le (bsa : Nat) : bsa >>> chunks bsa ≤ 2 ^ 19 := by
  apply chunksLoopF_post
  have h4 : bsa < 2 ^ (4 + bsa) := by
    calc bsa < 2 ^ bsa := Nat.lt_two_pow bsa
    _ ≤ 2 ^ (4 + bsa) := Nat.pow_le_pow_right (by omega) (by omega)
  rw [Nat.shiftRight_eq_div_pow]
  have : bsa / 2 ^ (4 + bsa) = 0 := Nat.div_eq_of_lt h4
  omega

lemma chunk_size_le (bsa : Nat) : chunk_size bsa ≤ 2 ^ 19 := by
  unfold chunk_size
  by_cases h : bsa >>> chunks bsa > 0
  · simpa [h] using shiftRight_chunks_le bsa
  · simp [h]

lemma chunk_size_pos (bsa : Nat) : 0 < chunk_size bsa := by
  unfold chunk_size
  by_cases h : bsa >>> chunks bsa > 0
  · rw [if_pos h]; exact h
  · rw [if_neg h]; omega

/-- `libm2k::M2K_TRIGGER_CONDITION_DIGITAL`: the hardware digital trigger
conditions, with `noTrigger` standing for `NO_TRIGGER_DIGITAL`. -/
inductive Cond where
  | risingEdge
  | fallingEdge
  | lowLevel
  | highLevel
  | anyEdge
  | noTrigger
deriving DecidableEq, Repr

/-- `CapturePlot` trigger-state values passed to `m_plot.setTriggerState`. -/
inductive PlotTriggerState where
  | Stop
  | Waiting
  | Triggered
  | Auto
deriving DecidableEq, Repr

/-- The LogicAnalyzer state relevant to capture start and the trigger
snapshot protocol: `m_started`, `m_autoMode`, the single-shot timer
(`m_timer`), the plot trigger-state, the hardware per-channel digital
trigger conditions (index = channel, length = `m_nbChannels`), the hardware
external trigger condition, and the saved list `m_triggerState`. -/
structure LAState where
  started : Bool
  autoMode : Bool
  timerArmed : Bool
  plotState : PlotTriggerState
  chans : List Cond
  ext : Cond
  saved : List Cond
deriving DecidableEq, Repr

/-- `LogicAnalyzer::saveTriggerState` (lines 1424-1437): when `m_started`,
for each channel push its current hardware condition onto `m_triggerState`
and force the channel to `NO_TRIGGER_DIGITAL`; then push the external
condition and force it to `NO_TRIGGER_DIGITAL` as well.  The per-channel
loop touches channel `i` only at iteration `i`, so its net effect is the
append-and-clear below. -/
def saveTriggerState (s : LAState) : LAState :=
  if s.started then
    { s with chans := s.chans.map (fun _ => Cond.noTrigger)
             ext := Cond.noTrigger
             saved := s.saved ++ s.chans ++ [s.ext] }
  else s

/-- One iteration of the loop in `LogicAnalyzer::restoreTriggerState`
(lines 1443-1446): `m_triggerState.push_back(getDigitalCondition(i));
setDigitalCondition(i, m_triggerState[i]);`.  The state threads the
hardware channel conditions and the growing `m_triggerState` list; the
indexed reads are total in the source (the list has more than `i` entries
at iteration `i`), modelled here with default-valued lookups. -/
def restoreStep (st : List Cond × List Cond) (i : Nat) : List Cond × List Cond :=
  let sv := st.2 ++ [st.1.getD i Cond.noTrigger]
  (st.1.set i (sv.getD i Cond.noTrigger), sv)

/-- `LogicAnalyzer::restoreTriggerState` (lines 1439-1452): when not
started and `m_triggerState` is non-empty, run the per-channel loop, set
the external condition to `m_triggerState.back()`, and clear the list. -/
def restoreTriggerState (s : LAState) : LAState :=
  if s.started = false ∧ s.saved ≠ [] then
    let res := (List.range s.chans.length).foldl restoreStep (s.chans, s.saved)
    { s with chans := res.1
             ext := res.2.getLastD Cond.noTrigger
             saved := [] }
  else s

/-- The effect of `LogicAnalyzer::startStop(true)` (lines 887-959) up to
the first hardware read of the capture worker, restricted to the state
above: when not already started, set `m_started`, arm the single-shot
auto-trigger timer only in auto mode (lines 928-946), and post
`CapturePlot::Waiting` (lines 957-959; in auto mode `CapturePlot::Auto` is
set first at line 930 and then overwritten by the worker's `Waiting`).
`startStop(true)` itself never touches the trigger conditions or
`m_triggerState`: `saveTriggerState` is connected only to the timer's
timeout (lines 1416-1418). -/
def startCapture (s : LAState) : LAState :=
  if s.started then s
  else
    { s with started := true
             timerArmed := s.autoMode
             plotState := PlotTriggerState.Waiting }

/-- `m_buffer = new uint16_t[bufferSize];` (line 955): the number of
`uint16_t` elements allocated for the session's sample buffer.  Note the
allocation uses the raw requested `bufferSize`, not `bufferSizeAdjusted`. -/
def bufferAlloc (bufferSize : Nat) : Nat := bufferSize

/-- Result of the oneshot branch of the capture worker. -/
structure OneshotRes where
  events : List (Nat × Nat)
  triggered : Bool
  loggedError : Bool
  writes : List Nat
deriving DecidableEq, Repr

/-- The oneshot branch of the capture-thread lambda (lines 961-974):
`try { temp = getSamplesP(bufferSize); memcpy(m_buffer, temp,
bufferSizeAdjusted * sizeof(uint16_t)); post Triggered; } catch
(invalid_argument) { qDebug() << e.what(); } Q_EMIT dataAvailable(0,
bufferSize);`.  `readOk` tells whether the blocking read succeeded;
`writes` records the buffer indices written by the `memcpy`.  The final
emit sits outside the try/catch, so it happens on both paths. -/
def oneshotRun (bufferSize : Nat) (readOk : Bool) : OneshotRes :=
  let bufferSizeAdjusted := roundUp4 bufferSize
  if readOk then
    { events := [(0, bufferSize)]
      triggered := true
      loggedError := false
      writes := List.range bufferSizeAdjusted }
  else
    { events := [(0, bufferSize)]
      triggered := false
      loggedError := true
      writes := [] }

/-- State of the streaming branch of the capture-thread lambda
(lines 976-1015): `absIndex` and `totalSamples` are the loop variables,
`events` the `dataAvailable` emissions in order, `lastCapturedSample`
mirrors `m_lastCapturedSample`, `canceled` records whether the
`m_stopRequested` break was taken, and `iters` counts executed loop
iterations (bookkeeping used to state that the final iteration of a
canceled run emitted nothing). -/
structure StreamState where
  absIndex : Nat
  totalSamples : Nat
  events : List (Nat × Nat)
  lastCapturedSample : Nat
  canceled : Bool
  iters : Nat
deriving DecidableEq, Repr

/-- The streaming do-while loop (lines 987-1014).  At iteration `k` the
schedule gives `(readOk, stopReq)`: whether `getSamplesP(captureSize)`
succeeded (an `invalid_argument` failure is caught and only logged, lines
999-1001), and the value of `m_stopRequested` observed at line 1003.  On
success the chunk is copied at offset `absIndex` and the counters advance;
if stop is requested the loop breaks before the emit; otherwise
`dataAvailable(absIndex - captureSize, absIndex)` is emitted (uint64
subtraction, hence the `% U64`) and `m_lastCapturedSample = absIndex`.
The loop repeats while `totalSamples` is non-zero.  `fuel` bounds the
number of iterations only to make the recursion structural; a run whose
reads all succeed finishes within `totalSamples` iterations. -/
def streamRunG (cs : Nat) (sched : Nat → Bool × Bool) : Nat → Nat → StreamState → StreamState
  | 0, _, s => s
  | fuel + 1, k, s =>
    let readOk := (sched k).1
    let stopReq := (sched k).2
    let captureSize := min cs s.totalSamples
    let absIndex2 := if readOk then s.absIndex + captureSize else s.absIndex
    let total2 := if readOk then s.totalSamples - captureSize else s.totalSamples
    if stopReq then
      { absIndex := absIndex2
        totalSamples := total2
        events := s.events
        lastCapturedSample := s.lastCapturedSample
        canceled := true
        iters := s.iters + 1 }
    else
      let s2 : StreamState :=
        { absIndex := absIndex2
          totalSamples := total2
          events := s.events ++ [((absIndex2 + (U64 - captureSize)) % U64, absIndex2)]
          lastCapturedSample := absIndex2
          canceled := s.canceled
          iters := s.iters + 1 }
      if total2 = 0 then s2 else streamRunG cs sched fuel (k + 1) s2

/-- A full streaming session over adjusted buffer size `bsa` (lines
976-1015): `totalSamples = bufferSizeAdjusted`, `absIndex = 0`,
`m_lastCapturedSample = 0` (line 926), chunk size derived from `bsa`. -/
def streamSessionG (bsa : Nat) (sched : Nat → Bool × Bool) (fuel : Nat) : StreamState :=
  streamRunG (chunk_size bsa) sched fuel 0
    { absIndex := 0
      totalSamples := bsa
      events := []
      lastCapturedSample := 0
      canceled := false
      iters := 0 }

/-- `chain a evs b`: the event list `evs` partitions the interval `[a, b)`
in order — each event is a non-empty range `[from, to)`, the first `from`
is `a`, each `from` equals the previous `to`, and the last `to` is `b`. -/
def chain : Nat → List (Nat × Nat) → Nat → Prop
  | a, [], b => a = b
  | a, e :: rest, b => e.1 = a ∧ a < e.2 ∧ chain e.2 rest b

lemma chain_snoc {a b c : Nat} {l : List (Nat × Nat)} (h : chain a l b) (hbc : b < c) :
    chain a (l ++ [(b, c)]) c := by
  induction l generalizing a with
  | nil => cases h; exact ⟨rfl, hbc, rfl⟩
  | cons e rest ih =>
    obtain ⟨h1, h2, h3⟩ := h
    exact ⟨h1, h2, ih h3⟩

lemma emit_from_eq {a capture total : Nat} (hcap : capture ≤ total) (hlt : a + total < U64) :
    (a + capture + (U64 - capture)) % U64 = a := by
  have hU : U64 = 2 ^ 64 := rfl
  have h1 : capture ≤ U64 := by omega
  have h2 : a + capture + (U64 - capture) = a + U64 := by omega
  rw [h2, Nat.add_mod_right]
  exact Nat.mod_eq_of_lt (by omega)

lemma streamRunG_success (cs : Nat) (hcs : 0 < cs) (stopSched : Nat → Bool) :
    ∀ fuel k s, s.canceled = false → s.lastCapturedSample = s.absIndex →
      0 < s.totalSamples → s.totalSamples ≤ fuel →
      s.absIndex + s.totalSamples < U64 →
      chain 0 s.events s.absIndex →
      (((streamRunG cs (fun i => (true, stopSched i)) fuel k s).canceled = false →
        chain 0 (streamRunG cs (fun i => (true, stopSched i)) fuel k s).events
          (s.absIndex + s.totalSamples) ∧
        (streamRunG cs (fun i => (true, stopSched i)) fuel k s).lastCapturedSample
          = s.absIndex + s.totalSamples ∧
        (streamRunG cs (fun i => (true, stopSched i)) fuel k s).totalSamples = 0) ∧
      ((streamRunG cs (fun i => (true, stopSched i)) fuel k s).canceled = true →
        (streamRunG cs (fun i => (true, stopSched i)) fuel k s).lastCapturedSample
          < s.absIndex + s.totalSamples)) := by
  intro fuel
  induction fuel with
  | zero =>
    intro k s _ _ hpos hle _ _
    omega
  | succ fuel ih =>
    intro k s hcanc hlast hpos hle hovf hchain
    rw [streamRunG]
    simp only [reduceIte]
    by_cases hstop : stopSched k = true
    · rw [if_pos hstop]
      constructor
      · intro hfalse
        simp at hfalse
      · intro _
        simp only
        omega
    · rw [if_neg hstop]
      have hcap : min cs s.totalSamples ≤ s.totalSamples := Nat.min_le_right _ _
      have hcappos : 0 < min cs s.totalSamples := lt_min hcs hpos
      have hfrom : (s.absIndex + min cs s.totalSamples + (U64 - min cs s.totalSamples)) % U64
          = s.absIndex := emit_from_eq hcap hovf
      by_cases htot : s.totalSamples - min cs s.totalSamples = 0
      · rw [if_pos htot]
        have hcapeq : min cs s.totalSamples = s.totalSamples := by omega
        constructor
        · intro _
          refine ⟨?_, by simp only; omega, by simp only; omega⟩
          simp only
          rw [hfrom, hcapeq]
          exact chain_snoc hchain (by omega)
        · intro htrue
          simp only at htrue
          rw [hcanc] at htrue
          cases htrue
      · rw [if_neg htot]
        have hres := ih (k + 1)
          { absIndex := s.absIndex + min cs s.totalSamples
            totalSamples := s.totalSamples - min cs s.totalSamples
            events := s.events ++
              [((s.absIndex + min cs s.totalSamples + (U64 - min cs s.totalSamples)) % U64,
                s.absIndex + min cs s.totalSamples)]
            lastCapturedSample := s.absIndex + min cs s.totalSamples
            canceled := s.canceled
            iters := s.iters + 1 }
          (by simpa using hcanc) (by simp) (by simp only; omega) (by simp only; omega)
          (by simp only; omega)
          (by simp only [hfrom]
              exact chain_snoc hchain (by omega))
        have harith : s.absIndex + min cs s.totalSamples
            + (s.totalSamples - min cs s.totalSamples) = s.absIndex + s.totalSamples := by
          omega
        rw [harith] at hres
        exact hres

lemma streamRunG_general (cs : Nat) (sched : Nat → Bool × Bool) :
    ∀ fuel k s, s.canceled = false → s.events.length = s.iters →
      (∀ e ∈ s.events, e.2 ≤ s.absIndex) →
      ((∀ e ∈ (streamRunG cs sched fuel k s).events,
          e.2 ≤ (streamRunG cs sched fuel k s).absIndex) ∧
       ((streamRunG cs sched fuel k s).canceled = true →
          (streamRunG cs sched fuel k s).events.length + 1
            = (streamRunG cs sched fuel k s).iters) ∧
       ((streamRunG cs sched fuel k s).canceled = false →
          (streamRunG cs sched fuel k s).events.length
            = (streamRunG cs sched fuel k s).iters)) := by
  intro fuel
  induction fuel with
  | zero =>
    intro k s hcanc hlen hbound
    simp only [streamRunG]
    refine ⟨hbound, ?_, ?_⟩
    · intro h
      rw [hcanc] at h
      cases h
    · intro _
      exact hlen
  | succ fuel ih =>
    intro k s hcanc hlen hbound
    rw [streamRunG]
    simp only
    have habs : s.absIndex ≤
        (if (sched k).1 = true then s.absIndex + min cs s.totalSamples else s.absIndex) := by
      split <;> omega
    by_cases hst : (sched k).2 = true
    · rw [if_pos hst]
      refine ⟨?_, ?_, ?_⟩
      · intro e he
        simp only at he ⊢
        exact le_trans (hbound e he) habs
      · intro _
        simp only
        omega
      · intro h
        simp only at h
        cases h
    · rw [if_neg hst]
      have hbound2 : ∀ e ∈ s.events ++
          [(((if (sched k).1 = true then s.absIndex + min cs s.totalSamples else s.absIndex)
              + (U64 - min cs s.totalSamples)) % U64,
            if (sched k).1 = true then s.absIndex + min cs s.totalSamples else s.absIndex)],
          e.2 ≤ (if (sched k).1 = true then s.absIndex + min cs s.totalSamples
                 else s.absIndex) := by
        intro e he
        rcases List.mem_append.mp he with hmem | hmem
        · exact le_trans (hbound e hmem) habs
        · rcases List.mem_singleton.mp hmem with rfl
          exact le_refl _
      by_cases htot :
          (if (sched k).1 = true then s.totalSamples - min cs s.totalSamples
           else s.totalSamples) = 0
      · rw [if_pos htot]
        refine ⟨hbound2, ?_, ?_⟩
        · intro h
          simp only at h
          rw [hcanc] at h
          cases h
        · intro _
          simp only [List.length_append, List.length_singleton]
          omega
      · rw [if_neg htot]
        apply ih
        · exact hcanc
        · simp only [List.length_append, List.length_singleton]
          omega
        · exact hbound2

/-- `m_timerTimeout = 1.0 / m_sampleRate * m_bufferSize * 1000.0 + 100;`
(lines 314 and 346).  The C++ `double` arithmetic is modelled exactly over
`ℚ`; the claim's discrepancy is a difference of tens of milliseconds, far
beyond any double rounding. -/
def timerTimeout (sampleRate bufferSize : ℚ) : ℚ :=
  1 / sampleRate * bufferSize * 1000 + 100

/-- The auto-mode timer arming in `startStop` (lines 928-946) and in the
trigger-mode toggle handler (lines 1342-1361): `double oneBufferTimeOut =
m_timerTimeout; if (!oneShotOrStream) { ... oneBufferTimeOut /=
buffersCount; } m_timer->start(oneBufferTimeOut);`. -/
def oneBufferTimeOut (oneshot : Bool) (t : ℚ) (bsa : Nat) : ℚ :=
  if oneshot then t else t / (buffersCount bsa : ℚ)

/-- The timeout formula as the claim states it: expected full-buffer
duration (in ms) divided by the chunk count, with the fixed margin added
after the division.  Written from the claim's words, for comparison with
`oneBufferTimeOut` which is translated from the source. -/
def claimTimeoutFormula (sampleRate bufferSize : ℚ) (oneshot : Bool) (bsa : Nat) : ℚ :=
  1 / sampleRate * bufferSize * 1000 / (if oneshot then 1 else (buffersCount bsa : ℚ)) + 100

/-- A `struct srd_decoder` as the stacking code uses it: its `id` and its
`inputs` and `outputs` kind lists. -/
structure SrdDecoder where
  id : String
  inputs : List String
  outputs : List String
deriving DecidableEq, Repr

/-- The kind-extraction idiom of `setupDecoders` and
`updateStackDecoderButton` (lines 1082-1088, 1234-1249): `QString k = "";
for (sl = list; sl; sl = sl->next) k = sl->data;` — the loop leaves the
last element of the list (or `""` when the list is empty). -/
def lastKind (l : List String) : String := l.foldl (fun _ x => x) ""

/-- `decoderList = g_slist_sort(decoderList, sort_pds);` (lines 1053-1060,
1233): sort the decoder catalog by `strcmp` on `id`, i.e. lexicographically
by id. -/
def sortPds (l : List SrdDecoder) : List SrdDecoder :=
  l.mergeSort (fun a b => decide (a.id ≤ b.id))

/-- The decoder ids offered for stacking by `updateStackDecoderButton`
(lines 1231-1256): walk the sorted catalog and add `dec->id` whenever the
decoder's input kind equals the top decoder's output kind (the items after
the `"-"` placeholder of the combo box). -/
def compatibleNextDecoders (catalog : List SrdDecoder) (top : SrdDecoder) : List String :=
  ((sortPds catalog).filter
    (fun d => lastKind d.inputs == lastKind top.outputs)).map (fun d => d.id)

/-- C1: for every streaming capture session of `bsa` (adjusted buffer
size) samples with the derived chunk size, whose reads all succeed, if the
session runs to completion without cancellation then the emitted
availability events partition `[0, bsa)` exactly once, in strictly
increasing order with no gaps or overlaps (`chain 0 events bsa`: first
`from` is 0, each `from` equals the previous `to`, last `to` is `bsa`),
all samples are consumed, and `m_lastCapturedSample = bsa`; moreover
`m_lastCapturedSample = bsa` holds if and only if the session was not
canceled. -/
theorem C1_streaming_partition (bsa : Nat) (stopSched : Nat → Bool)
    (hpos : 0 < bsa) (hsz : bsa < U64) :
    ((streamSessionG bsa (fun i => (true, stopSched i)) bsa).canceled = false →
      chain 0 (streamSessionG bsa (fun i => (true, stopSched i)) bsa).events bsa ∧
      (streamSessionG bsa (fun i => (true, stopSched i)) bsa).lastCapturedSample = bsa ∧
      (streamSessionG bsa (fun i => (true, stopSched i)) bsa).totalSamples = 0) ∧
    ((streamSessionG bsa (fun i => (true, stopSched i)) bsa).lastCapturedSample = bsa ↔
      (streamSessionG bsa (fun i => (true, stopSched i)) bsa).canceled = false) := by
  have h := streamRunG_success (chunk_size bsa) (chunk_size_pos bsa) stopSched bsa 0
    { absIndex := 0
      totalSamples := bsa
      events := []
      lastCapturedSample := 0
      canceled := false
      iters := 0 }
    rfl rfl hpos le_rfl (by simpa using hsz) rfl
  simp only [Nat.zero_add] at h
  unfold streamSessionG
  refine ⟨h.1, ?_, ?_⟩
  · intro heq
    by_contra hne
    have htrue : (streamRunG (chunk_size bsa) (fun i => (true, stopSched i)) bsa 0
        { absIndex := 0
          totalSamples := bsa
          events := []
          lastCapturedSample := 0
          canceled := false
          iters := 0 }).canceled = true := by
      revert hne
      cases (streamRunG (chunk_size bsa) (fun i => (true, stopSched i)) bsa 0
        { absIndex := 0
          totalSamples := bsa
          events := []
          lastCapturedSample := 0
          canceled := false
          iters := 0 }).canceled
      · intro hne; exact absurd rfl hne
      · intro _; rfl
    have := h.2 htrue
    omega
  · intro hc
    exact (h.1 hc).2.1

/-- Witness for C1 at `bsa = 4` with the never-cancel schedule. -/
theorem C1_streaming_partition_witness :
    (0 < 4 ∧ 4 < U64) ∧
    (((streamSessionG 4 (fun _ => (true, false)) 4).canceled = false →
      chain 0 (streamSessionG 4 (fun _ => (true, false)) 4).events 4 ∧
      (streamSessionG 4 (fun _ => (true, false)) 4).lastCapturedSample = 4 ∧
      (streamSessionG 4 (fun _ => (true, false)) 4).totalSamples = 0) ∧
    ((streamSessionG 4 (fun _ => (true, false)) 4).lastCapturedSample = 4 ↔
      (streamSessionG 4 (fun _ => (true, false)) 4).canceled = false)) :=
  ⟨⟨by decide, by decide⟩, C1_streaming_partition 4 (fun _ => false) (by decide) (by decide)⟩

/-- A concrete pre-capture state for the C2 round trip: a running session
on the M2K's 16 digital input channels, each channel conditioned on a
rising edge and the external condition on a falling edge, with no prior
snapshot. -/
def c2PreState : LAState :=
  { started := true
    autoMode := false
    timerArmed := false
    plotState := PlotTriggerState.Stop
    chans := List.replicate 16 Cond.risingEdge
    ext := Cond.fallingEdge
    saved := [] }

/-- The C2 round trip: save while running, stop the session
(`m_started = false`), restore. -/
def c2Restored : LAState :=
  restoreTriggerState { saveTriggerState c2PreState with started := false }

/-- C2: evaluating one save-while-running / restore-after-stop round trip
at `c2PreState`.  The save stores exactly 16 + 1 entries and the restore
returns every per-channel condition to its pre-save value and empties the
saved list — but it sets the external condition to `noTrigger` instead of
the saved `fallingEdge`: the restore loop itself pushes the 16 current
(already cleared) channel conditions onto `m_triggerState` before
`m_triggerState.back()` is read, so `back()` is one of those pushed
`NO_TRIGGER_DIGITAL` values rather than the snapshotted external
condition. -/
theorem C2_roundtrip_eval :
    (saveTriggerState c2PreState).saved.length = 16 + 1 ∧
    c2Restored.chans = c2PreState.chans ∧
    c2Restored.saved = [] ∧
    c2PreState.ext = Cond.fallingEdge ∧
    c2Restored.ext = Cond.noTrigger := by decide

/-- C3 counterexample: in oneshot mode with a failed (invalid-argument)
read of 1000 samples, the worker logs the error but still emits the
availability event `[0, 1000)` — the emit sits outside the try/catch —
contradicting the claim that no event is emitted on failure. -/
theorem C3_emit_on_failure :
    (oneshotRun 1000 false).loggedError = true ∧
    (oneshotRun 1000 false).triggered = false ∧
    (oneshotRun 1000 false).events = [(0, 1000)] := by decide

/-- C3 amended: in oneshot mode the worker emits the availability event
`[0, bufferSize)` unconditionally — after a failed read as well as after a
successful one; the failure is logged and only the `Triggered` status post
is skipped on failure. -/
theorem C3_oneshot_emit_unconditional (bufferSize : Nat) (readOk : Bool) :
    (oneshotRun bufferSize readOk).events = [(0, bufferSize)] ∧
    ((oneshotRun bufferSize readOk).triggered = true ↔ readOk = true) ∧
    ((oneshotRun bufferSize readOk).loggedError = true ↔ readOk = false) := by
  cases readOk <;> simp [oneshotRun]

/-- A concrete idle state for C4: not started, auto mode off, one channel
with a rising-edge condition, external on falling edge, no snapshot. -/
def c4IdleState : LAState :=
  { started := false
    autoMode := false
    timerArmed := false
    plotState := PlotTriggerState.Stop
    chans := [Cond.risingEdge]
    ext := Cond.fallingEdge
    saved := [] }

/-- C4 counterexample: invoking start on `c4IdleState` leaves the saved
list empty and every trigger condition untouched — `startStop(true)` never
calls `saveTriggerState`, so nothing is saved or cleared before the
worker's first read, contradicting the claim. -/
theorem C4_no_save_at_start :
    (startCapture c4IdleState).saved = [] ∧
    (startCapture c4IdleState).chans = [Cond.risingEdge] ∧
    (startCapture c4IdleState).ext = Cond.fallingEdge := by decide

/-- C4 amended: for every invocation of start when no session is active,
the status transitions to Waiting (posted by the worker before its first
read) and the auto-trigger timer is armed exactly in auto mode, but the
trigger conditions and the saved list are left unchanged by start itself;
the save-and-clear of every per-channel condition and the external
condition happens only when the single-shot timer fires while the session
runs (the timeout slot is `saveTriggerState`). -/
theorem C4_start_waiting_save_on_timeout (s : LAState) (h : s.started = false) :
    (startCapture s).plotState = PlotTriggerState.Waiting ∧
    (startCapture s).chans = s.chans ∧
    (startCapture s).ext = s.ext ∧
    (startCapture s).saved = s.saved ∧
    (startCapture s).timerArmed = s.autoMode ∧
    (saveTriggerState (startCapture s)).saved = s.saved ++ s.chans ++ [s.ext] ∧
    (saveTriggerState (startCapture s)).chans
      = List.replicate s.chans.length Cond.noTrigger ∧
    (saveTriggerState (startCapture s)).ext = Cond.noTrigger := by
  unfold startCapture saveTriggerState
  simp [h, List.map_const']

/-- Witness for C4 at the concrete idle state `c4IdleState`. -/
theorem C4_start_witness :
    c4IdleState.started = false ∧
    ((startCapture c4IdleState).plotState = PlotTriggerState.Waiting ∧
    (startCapture c4IdleState).chans = c4IdleState.chans ∧
    (startCapture c4IdleState).ext = c4IdleState.ext ∧
    (startCapture c4IdleState).saved = c4IdleState.saved ∧
    (startCapture c4IdleState).timerArmed = c4IdleState.autoMode ∧
    (saveTriggerState (startCapture c4IdleState)).saved
      = c4IdleState.saved ++ c4IdleState.chans ++ [c4IdleState.ext] ∧
    (saveTriggerState (startCapture c4IdleState)).chans
      = List.replicate c4IdleState.chans.length Cond.noTrigger ∧
    (saveTriggerState (startCapture c4IdleState)).ext = Cond.noTrigger) :=
  ⟨by decide, C4_start_waiting_save_on_timeout c4IdleState (by decide)⟩

/-- C5: the capture worker's oneshot copy writes out of bounds whenever
the requested size is not a multiple of 4.  At requested `bufferSize =
1001` the buffer is allocated with 1001 elements (`new
uint16_t[bufferSize]`) but the `memcpy` writes `roundUp4 1001 = 1004`
sample words, so index 1001 (among others) is written although it is not
below the allocated count. -/
theorem C5_oob_write_at_1001 :
    bufferAlloc 1001 = 1001 ∧
    1001 ∈ (oneshotRun 1001 true).writes ∧
    ¬(1001 < bufferAlloc 1001) := by
  refine ⟨rfl, ?_, by decide⟩
  simp only [oneshotRun, reduceIte, List.mem_range]
  decide

/-- C6 counterexample: at adjusted buffer size 16 the derived chunk size
is `16 >> 4 = 1`, below the claimed minimum of 4 samples. -/
theorem C6_chunk_below_min : chunk_size 16 = 1 ∧ ¬(4 ≤ chunk_size 16) := by decide

/-- C6 amended: for every adjusted buffer size the derived chunk size is
at most `2^19` (the shift count is raised until `bufferSize >> chunks ≤
2^19`) and at least 1; the constant 4 is only the fallback used when
`bufferSize >> chunks` is 0, so chunk sizes 1, 2 and 3 occur (e.g. for
adjusted sizes 16..63) and the claimed minimum of 4 does not hold. -/
theorem C6_chunk_bounds (bsa : Nat) :
    chunk_size bsa ≤ 2 ^ 19 ∧ 1 ≤ chunk_size bsa ∧
    (bsa >>> chunks bsa = 0 → chunk_size bsa = 4) := by
  refine ⟨chunk_size_le bsa, chunk_size_pos bsa, ?_⟩
  intro h
  unfold chunk_size
  rw [h]
  simp

/-- C7: every requested buffer size accepted by the size control (at most
the mode's ceiling) is adjusted to `roundUp4`, which is a multiple of 4,
at least the request, the least such multiple, and still at most the
mode's ceiling (4M samples oneshot, 1G samples streaming). -/
theorem C7_configure_bounds (req : Nat) (oneshot : Bool)
    (h : req ≤ maxBufferSize oneshot) :
    roundUp4 req % 4 = 0 ∧
    req ≤ roundUp4 req ∧
    (∀ m, m % 4 = 0 → req ≤ m → roundUp4 req ≤ m) ∧
    roundUp4 req ≤ maxBufferSize oneshot := by
  unfold maxBufferSize MAX_BUFFER_SIZE_ONESHOT MAX_BUFFER_SIZE_STREAM at h ⊢
  unfold roundUp4
  refine ⟨by omega, by omega, ?_, ?_⟩
  · intro m hm hr
    omega
  · cases oneshot <;> simp only [Bool.false_eq_true, if_true, if_false] at h ⊢ <;> omega

/-- Witness for C7 at requested size 1001 in oneshot mode. -/
theorem C7_configure_witness :
    1001 ≤ maxBufferSize true ∧
    (roundUp4 1001 % 4 = 0 ∧
     1001 ≤ roundUp4 1001 ∧
     (∀ m, m % 4 = 0 → 1001 ≤ m → roundUp4 1001 ≤ m) ∧
     roundUp4 1001 ≤ maxBufferSize true) :=
  ⟨by decide, C7_configure_bounds 1001 true (by decide)⟩

/-- C8: in streaming mode, for every schedule of read outcomes and
observed stop-flag values, every emitted availability event has its upper
bound at most `absIndex`, the end of the last fully completed chunk; a
canceled run executed one more iteration than it emitted events (the
iteration that observed `m_stopRequested` broke before its emit, so no
event is emitted for the canceled chunk), while a non-canceled run emitted
exactly one event per iteration. -/
theorem C8_cancel_no_partial_event (bsa fuel : Nat) (sched : Nat → Bool × Bool) :
    (∀ e ∈ (streamSessionG bsa sched fuel).events,
        e.2 ≤ (streamSessionG bsa sched fuel).absIndex) ∧
    ((streamSessionG bsa sched fuel).canceled = true →
        (streamSessionG bsa sched fuel).events.length + 1
          = (streamSessionG bsa sched fuel).iters) ∧
    ((streamSessionG bsa sched fuel).canceled = false →
        (streamSessionG bsa sched fuel).events.length
          = (streamSessionG bsa sched fuel).iters) := by
  unfold streamSessionG
  exact streamRunG_general (chunk_size bsa) sched fuel 0 _ rfl rfl
    (by intro e he; cases he)

/-- C9 counterexample: with sample rate 1000 Hz and buffer size 64 in
streaming mode (`buffersCount 64 = 16`), the armed timeout is
`(64 + 100) / 16 = 10.25` ms — the 100 ms margin is part of
`m_timerTimeout` and therefore divided too — whereas the claim's formula
(margin added after the division) gives `64 / 16 + 100 = 104` ms. -/
theorem C9_margin_divided :
    oneBufferTimeOut false (timerTimeout 1000 64) 64
      ≠ claimTimeoutFormula 1000 64 false 64 := by
  have hb : buffersCount 64 = 16 := by decide
  unfold oneBufferTimeOut timerTimeout claimTimeoutFormula
  rw [hb]
  norm_num

/-- C9 amended: the timeout armed at session start equals the expected
full-buffer duration in milliseconds plus the fixed 100 ms margin, all
divided by the chunk count in streaming mode (by 1 in oneshot mode): the
margin is added before the division, not after it. -/
theorem C9_timer_formula (sampleRate bufferSize : ℚ) (oneshot : Bool) (bsa : Nat) :
    oneBufferTimeOut oneshot (timerTimeout sampleRate bufferSize) bsa
      = (1 / sampleRate * bufferSize * 1000 + 100)
        / (if oneshot then 1 else (buffersCount bsa : ℚ)) := by
  cases oneshot <;> simp [oneBufferTimeOut, timerTimeout]

/-- C10: the decoder ids offered for stacking on top of `top` are exactly
the ids of the catalog decoders whose declared input kind equals `top`'s
declared output kind, and the offered list is ordered lexicographically by
id. -/
theorem C10_stack_offer (catalog : List SrdDecoder) (top : SrdDecoder) :
    (∀ i : String, i ∈ compatibleNextDecoders catalog top ↔
       ∃ d ∈ catalog, d.id = i ∧ lastKind d.inputs = lastKind top.outputs) ∧
    List.Sorted (fun a b : String => a ≤ b) (compatibleNextDecoders catalog top) := by
  constructor
  · intro i
    unfold compatibleNextDecoders sortPds
    simp only [List.mem_map, List.mem_filter, List.mem_mergeSort, beq_iff_eq]
    constructor
    · rintro ⟨d, ⟨hmem, hkind⟩, rfl⟩
      exact ⟨d, hmem, rfl, hkind⟩
    · rintro ⟨d, hmem, rfl, hkind⟩
      exact ⟨d, ⟨hmem, hkind⟩, rfl⟩
  · unfold compatibleNextDecoders sortPds
    apply List.Pairwise.map
    · intro a b hab
      exact hab
    · apply List.Pairwise.sublist (List.filter_sublist _)
      have htrans : ∀ a b c : SrdDecoder, decide (a.id ≤ b.id) → decide (b.id ≤ c.id) →
          decide (a.id ≤ c.id) := by
        intro a b c h1 h2
        simp only [decide_eq_true_eq] at h1 h2 ⊢
        exact le_trans h1 h2
      have htotal : ∀ a b : SrdDecoder,
          (decide (a.id ≤ b.id) || decide (b.id ≤ a.id)) = true := by
        intro a b
        simpa using le_total a.id b.id
      have hs := List.sorted_mergeSort htrans htotal catalog
      exact hs.imp (fun h => of_decide_eq_true h)

end Scopy
